import Mathlib

/-!
Shallow embedding of `the_snake.py`: a grid snake game with obstacles,
an apple (grow food) and an "incorrect" food (shrink food).  Rendering,
window setup and frame pacing are external I/O and are not modelled; the
embedded part is the game-state update logic: the `Snake` methods, the
rejection-sampling placement routine `randomize_position`, the key handler
`handle_keys`, and the body of the `while` loop in `main` (a "tick").

Randomness is modelled by an explicit list of draws: each draw is a pair
of naturals standing for the two `randint` results of one sampling attempt
(`randint(0, GRID_WIDTH - 1)` and `randint(0, GRID_HEIGHT - 1)`); a list
of draws that runs out models a non-terminating rejection loop (`none`).
Python integers are `Int`; Python `%` on a positive modulus is `Int.emod`.
-/

/-- Screen width in pixels (`SCREEN_WIDTH = 640`). -/
def SCREEN_WIDTH : Int := 640

/-- Screen height in pixels (`SCREEN_HEIGHT = 480`). -/
def SCREEN_HEIGHT : Int := 480

/-- Side of one grid cell in pixels (`GRID_SIZE = 20`). -/
def GRID_SIZE : Int := 20

/-- Number of grid columns (`GRID_WIDTH = SCREEN_WIDTH // GRID_SIZE`). -/
def GRID_WIDTH : Int := SCREEN_WIDTH / GRID_SIZE

/-- Number of grid rows (`GRID_HEIGHT = SCREEN_HEIGHT // GRID_SIZE`). -/
def GRID_HEIGHT : Int := SCREEN_HEIGHT / GRID_SIZE

/-- A pixel position `(x, y)`, a pair of Python ints. -/
abbrev Pos : Type := Int × Int

/-- Direction `UP = (0, -1)`. -/
def UP : Pos := (0, -1)

/-- Direction `DOWN = (0, 1)`. -/
def DOWN : Pos := (0, 1)

/-- Direction `LEFT = (-1, 0)`. -/
def LEFT : Pos := (-1, 0)

/-- Direction `RIGHT = (1, 0)`. -/
def RIGHT : Pos := (1, 0)

/-- The four direction constants of the source. -/
def Directions : List Pos := [UP, DOWN, LEFT, RIGHT]

/-- One sampling attempt of `randomize_position`: the results of
`randint(0, GRID_WIDTH - 1)` and `randint(0, GRID_HEIGHT - 1)`. -/
abbrev Draw : Type := Nat × Nat

/-- Draws lie in the ranges `randint` guarantees. -/
def ValidDraws (l : List Draw) : Prop :=
  ∀ d ∈ l, (d.1 : Int) < GRID_WIDTH ∧ (d.2 : Int) < GRID_HEIGHT

instance : DecidablePred ValidDraws := fun l =>
  List.decidableBAll _ l

/-- The rejection-sampling loop shared by `Apple.randomize_position` and
`IncorrectFood.randomize_position`: repeatedly draw a random grid cell and
retry while the obstacle list is non-empty and some obstacle occupies the
drawn cell.  Returns the accepted position and the unconsumed draws;
`none` models running forever (draws exhausted). -/
def randomize_position (obstacles : List Pos) : List Draw → Option (Pos × List Draw)
  | [] => none
  | d :: rest =>
    let p : Pos := ((d.1 : Int) * GRID_SIZE, (d.2 : Int) * GRID_SIZE)
    if obstacles.isEmpty = false ∧ p ∈ obstacles then
      randomize_position obstacles rest
    else
      some (p, rest)

/-- The snake's mutable state: `positions` (head first), current
`direction`, buffered `next_direction`, and the `length` counter. -/
structure Snake where
  positions : List Pos
  direction : Pos
  next_direction : Option Pos
  length : Int
deriving DecidableEq, Repr

/-- The state `Snake.__init__` and `Snake.reset` both establish: one
segment at the screen centre, heading `RIGHT`, no buffered direction,
`length = 1`. -/
def initialSnake : Snake :=
  { positions := [(SCREEN_WIDTH / 2, SCREEN_HEIGHT / 2)]
    direction := RIGHT
    next_direction := none
    length := 1 }

/-- `Snake.reset`: returns the snake to its initial state regardless of
the state it is called on. -/
def Snake.reset (_s : Snake) : Snake := initialSnake

/-- `Snake.update_direction`: if a direction is buffered and its opposite
differs from the current direction, adopt it; the buffer is cleared in
every case.  (A buffered tuple is always truthy in Python, so the guard
`if self.next_direction` is exactly the `Option` match.) -/
def Snake.update_direction (s : Snake) : Snake :=
  match s.next_direction with
  | none => s
  | some nd =>
    let opposite_direction : Pos := (-nd.1, -nd.2)
    if opposite_direction ≠ s.direction then
      { s with direction := nd, next_direction := none }
    else
      { s with next_direction := none }

/-- `Snake.move`: prepend the wrapped new head; pop the tail if the list
now exceeds `length`.  `none` models the `IndexError` that
`self.positions[0]` raises on an empty list. -/
def Snake.move (s : Snake) : Option Snake :=
  match s.positions with
  | [] => none
  | current_head :: _ =>
    let new_head : Pos :=
      ((current_head.1 + s.direction.1 * GRID_SIZE) % SCREEN_WIDTH,
       (current_head.2 + s.direction.2 * GRID_SIZE) % SCREEN_HEIGHT)
    let inserted : List Pos := new_head :: s.positions
    some { s with
      positions :=
        if (inserted.length : Int) > s.length then inserted.dropLast
        else inserted }

/-- `Snake.grow`: increment `length`; the extra segment appears lazily at
the next `move`. -/
def Snake.grow (s : Snake) : Snake :=
  { s with length := s.length + 1 }

/-- `Snake.shrink`: if `length > 1`, decrement `length` and eagerly pop
the tail segment; otherwise do nothing.  `none` models the `IndexError`
that `self.positions.pop()` raises on an empty list. -/
def Snake.shrink (s : Snake) : Option Snake :=
  if s.length > 1 then
    match s.positions with
    | [] => none
    | _ :: _ =>
      some { s with length := s.length - 1, positions := s.positions.dropLast }
  else
    some s

/-- `Snake.get_head_position`: `positions[0]`, `none` on an empty list. -/
def Snake.get_head_position (s : Snake) : Option Pos :=
  s.positions.head?

/-- One event drained by `handle_keys`: quit, an arrow-key press, or any
other event (ignored). -/
inductive GameEvent where
  | quit
  | keyUp
  | keyDown
  | keyLeft
  | keyRight
  | other
deriving DecidableEq, Repr

/-- `handle_keys`: fold the pending events into the snake's buffered
direction; a quit event raises `SystemExit` at once (`none`), leaving the
remaining events unprocessed. -/
def handle_keys (s : Snake) : List GameEvent → Option Snake
  | [] => some s
  | GameEvent.quit :: _ => none
  | GameEvent.keyUp :: rest => handle_keys { s with next_direction := some UP } rest
  | GameEvent.keyDown :: rest => handle_keys { s with next_direction := some DOWN } rest
  | GameEvent.keyLeft :: rest => handle_keys { s with next_direction := some LEFT } rest
  | GameEvent.keyRight :: rest => handle_keys { s with next_direction := some RIGHT } rest
  | GameEvent.other :: rest => handle_keys s rest

/-- The five obstacles created at the top of `main`, fixed for the
program's lifetime. -/
def initialObstacles : List Pos :=
  [(100, 100), (200, 200), (300, 300), (400, 100), (500, 200)]

/-- The entities the game loop owns. -/
structure GameState where
  snake : Snake
  apple : Pos
  incorrect_food : Pos
  obstacles : List Pos
deriving DecidableEq, Repr

/-- The loop-local state threaded through the four collision checks of a
tick: the entities plus the remaining random draws. -/
structure LoopState where
  snake : Snake
  apple : Pos
  incorrect_food : Pos
  obstacles : List Pos
  draws : List Draw
deriving DecidableEq, Repr

/-- The respawn shared by the reset branches: reset the snake and
re-randomize both foods against the obstacles. -/
def resetRespawn (st : LoopState) : Option LoopState :=
  match randomize_position st.obstacles st.draws with
  | none => none
  | some (a, d1) =>
    match randomize_position st.obstacles d1 with
    | none => none
    | some (f, d2) =>
      some { st with snake := st.snake.reset, apple := a,
                     incorrect_food := f, draws := d2 }

/-- Check 1 of the tick: if the head matches any obstacle cell, reset the
snake and re-randomize the apple and the incorrect food. -/
def obstaclePhase (st : LoopState) : Option LoopState :=
  match st.snake.get_head_position with
  | none => none
  | some h =>
    if h ∈ st.obstacles then resetRespawn st
    else some st

/-- Check 2 of the tick: if the head occurs among `positions[1:]`, reset
the snake and re-randomize the apple and the incorrect food. -/
def selfPhase (st : LoopState) : Option LoopState :=
  match st.snake.get_head_position with
  | none => none
  | some h =>
    if h ∈ st.snake.positions.tail then resetRespawn st
    else some st

/-- Check 3 of the tick: if the head matches the apple, grow and
re-randomize both the apple and the incorrect food. -/
def applePhase (st : LoopState) : Option LoopState :=
  match st.snake.get_head_position with
  | none => none
  | some h =>
    if h = st.apple then
      match randomize_position st.obstacles st.draws with
      | none => none
      | some (a, d1) =>
        match randomize_position st.obstacles d1 with
        | none => none
        | some (f, d2) =>
          some { st with snake := st.snake.grow, apple := a,
                         incorrect_food := f, draws := d2 }
    else some st

/-- Check 4 of the tick: if the head matches the incorrect food, shrink
and re-randomize the incorrect food only. -/
def foodPhase (st : LoopState) : Option LoopState :=
  match st.snake.get_head_position with
  | none => none
  | some h =>
    if h = st.incorrect_food then
      match st.snake.shrink with
      | none => none
      | some s' =>
        match randomize_position st.obstacles st.draws with
        | none => none
        | some (f, d1) =>
          some { st with snake := s', incorrect_food := f, draws := d1 }
    else some st

/-- The update part of one iteration of the `while` loop in `main`, after
input handling: apply the buffered direction, move, then run the four
collision checks in their fixed order. -/
def tickBody (gs : GameState) (draws : List Draw) : Option GameState :=
  match (gs.snake.update_direction).move with
  | none => none
  | some s2 =>
    match obstaclePhase { snake := s2, apple := gs.apple,
                          incorrect_food := gs.incorrect_food,
                          obstacles := gs.obstacles, draws := draws } with
    | none => none
    | some st1 =>
      match selfPhase st1 with
      | none => none
      | some st2 =>
        match applePhase st2 with
        | none => none
        | some st3 =>
          match foodPhase st3 with
          | none => none
          | some st4 =>
            some { snake := st4.snake, apple := st4.apple,
                   incorrect_food := st4.incorrect_food,
                   obstacles := st4.obstacles }

/-- One full iteration of the `while` loop in `main`: drain the events,
then run the update.  `none` covers quitting, the `IndexError` of `move`
on an empty snake, and a non-terminating placement loop. -/
def tick (gs : GameState) (events : List GameEvent) (draws : List Draw) :
    Option GameState :=
  match handle_keys gs.snake events with
  | none => none
  | some s => tickBody { gs with snake := s } draws

/-- The states the game loop can be in at the top of an iteration:
the initial state built by `main` (snake fresh, obstacles fixed, the two
foods placed by `randomize_position`), closed under successful ticks with
in-range random draws. -/
inductive Reachable : GameState → Prop where
  | init (a f : Pos) (da df ra rf : List Draw) :
      ValidDraws da → ValidDraws df →
      randomize_position initialObstacles da = some (a, ra) →
      randomize_position initialObstacles df = some (f, rf) →
      Reachable { snake := initialSnake, apple := a, incorrect_food := f,
                  obstacles := initialObstacles }
  | step (gs gs' : GameState) (events : List GameEvent) (draws : List Draw) :
      Reachable gs → ValidDraws draws → tick gs events draws = some gs' →
      Reachable gs'

/-- Iterated `Snake.move` (advancing the snake `n` ticks with no other
interaction). -/
def moveN : Nat → Snake → Option Snake
  | 0, s => some s
  | n + 1, s => s.move.bind (moveN n)

/-- A pixel coordinate that lies on the grid: non-negative, below the
screen bound, and a multiple of the cell size. -/
def AlignedCoord (x bound : Int) : Prop :=
  0 ≤ x ∧ x < bound ∧ x % GRID_SIZE = 0

instance (x bound : Int) : Decidable (AlignedCoord x bound) := by
  unfold AlignedCoord; infer_instance

/-- A grid-aligned position: both coordinates aligned to their screen
dimension. -/
def AlignedPos (p : Pos) : Prop :=
  AlignedCoord p.1 SCREEN_WIDTH ∧ AlignedCoord p.2 SCREEN_HEIGHT

instance (p : Pos) : Decidable (AlignedPos p) := by
  unfold AlignedPos; infer_instance

/-- The snake-local invariant the loop maintains: every segment is
grid-aligned and the segment list never exceeds the `length` counter. -/
def SnakeOK (s : Snake) : Prop :=
  (∀ p ∈ s.positions, AlignedPos p) ∧ (s.positions.length : Int) ≤ s.length

/-- The game-state invariant: snake invariant, aligned foods, and the
obstacle list fixed to the five obstacles of `main`. -/
def InvG (gs : GameState) : Prop :=
  SnakeOK gs.snake ∧ AlignedPos gs.apple ∧ AlignedPos gs.incorrect_food ∧
    gs.obstacles = initialObstacles

/-- The loop-state invariant threaded through the four checks. -/
def InvL (st : LoopState) : Prop :=
  SnakeOK st.snake ∧ AlignedPos st.apple ∧ AlignedPos st.incorrect_food ∧
    st.obstacles = initialObstacles ∧ ValidDraws st.draws

theorem GRID_WIDTH_eq : GRID_WIDTH = 32 := rfl

theorem GRID_HEIGHT_eq : GRID_HEIGHT = 24 := rfl

/-- Wrapping a grid-aligned coordinate by one cell step stays aligned:
the modulus keeps it in range and both cell size and screen size are
multiples of the cell size. -/
theorem alignedPos_step (p d : Pos) (hp : AlignedPos p) :
    AlignedPos ((p.1 + d.1 * GRID_SIZE) % SCREEN_WIDTH,
                (p.2 + d.2 * GRID_SIZE) % SCREEN_HEIGHT) := by
  obtain ⟨⟨hx0, hx1, hx2⟩, hy0, hy1, hy2⟩ := hp
  unfold AlignedPos AlignedCoord GRID_SIZE SCREEN_WIDTH SCREEN_HEIGHT at *
  exact ⟨⟨by omega, by omega, by omega⟩, by omega, by omega, by omega⟩

/-- A draw accepted by the rejection loop under in-range draws is a
grid-aligned position, and the unconsumed draws stay in range. -/
theorem randomize_position_some {obs : List Pos} :
    ∀ {dr : List Draw} {p : Pos} {rest : List Draw}, ValidDraws dr →
      randomize_position obs dr = some (p, rest) →
      AlignedPos p ∧ ValidDraws rest := by
  intro dr
  induction dr with
  | nil =>
    intro p rest _ he
    simp [randomize_position] at he
  | cons d tl ih =>
    intro p rest hv he
    have hvtl : ValidDraws tl := fun x hx => hv x (List.mem_cons_of_mem _ hx)
    have hd := hv d (List.mem_cons_self _ _)
    rw [GRID_WIDTH_eq] at hd
    rw [GRID_HEIGHT_eq] at hd
    simp only [randomize_position] at he
    split at he
    · exact ih hvtl he
    · injection he with he
      injection he with he1 he2
      subst he1
      subst he2
      refine ⟨⟨⟨?_, ?_, ?_⟩, ?_, ?_, ?_⟩, hvtl⟩ <;>
        simp only [GRID_SIZE, SCREEN_WIDTH, SCREEN_HEIGHT] <;> omega

/-- With a non-empty obstacle list, the rejection loop never accepts an
obstacle cell. -/
theorem randomize_position_not_mem {obs : List Pos} (hobs : obs ≠ []) :
    ∀ {dr : List Draw} {p : Pos} {rest : List Draw},
      randomize_position obs dr = some (p, rest) → p ∉ obs := by
  intro dr
  induction dr with
  | nil =>
    intro p rest he
    simp [randomize_position] at he
  | cons d tl ih =>
    intro p rest he
    simp only [randomize_position] at he
    split at he
    · exact ih he
    · rename_i hcond
      injection he with he
      injection he with he1 he2
      subst he1
      intro hmem
      apply hcond
      refine ⟨?_, hmem⟩
      cases obs with
      | nil => exact absurd rfl hobs
      | cons o os => rfl

/-- `update_direction` touches only the direction fields. -/
theorem Snake.update_direction_frame (s : Snake) :
    (s.update_direction).positions = s.positions ∧
      (s.update_direction).length = s.length := by
  unfold Snake.update_direction
  cases s.next_direction with
  | none => exact ⟨rfl, rfl⟩
  | some nd =>
    dsimp only
    split <;> exact ⟨rfl, rfl⟩

/-- The freshly created (or reset) snake satisfies the snake invariant. -/
theorem snakeOK_initial : SnakeOK initialSnake := by
  constructor
  · intro p hp
    simp only [initialSnake, List.mem_singleton] at hp
    subst hp
    decide
  · decide

/-- `grow` preserves the snake invariant. -/
theorem Snake.grow_snakeOK {s : Snake} (h : SnakeOK s) : SnakeOK s.grow := by
  refine ⟨h.1, ?_⟩
  have h2 := h.2
  unfold Snake.grow
  dsimp only
  omega

/-- `shrink` preserves the snake invariant when it returns. -/
theorem Snake.shrink_snakeOK {s s' : Snake} (h : SnakeOK s)
    (he : s.shrink = some s') : SnakeOK s' := by
  obtain ⟨hal, hlen⟩ := h
  unfold Snake.shrink at he
  split at he
  · split at he
    · exact absurd he (by simp)
    · injection he with he
      subst he
      constructor
      · intro p hp
        exact hal p (List.mem_of_mem_dropLast hp)
      · dsimp only
        rw [List.length_dropLast]
        omega
  · injection he with he
    subst he
    exact ⟨hal, hlen⟩

/-- Unfolding of `Snake.move` on a non-empty snake. -/
theorem Snake.move_cons {s : Snake} {c : Pos} {t : List Pos} (hps : s.positions = c :: t) :
    s.move = some { s with positions :=
      (if ((c :: t).length + 1 : Int) > s.length
       then (((c.1 + s.direction.1 * GRID_SIZE) % SCREEN_WIDTH,
              (c.2 + s.direction.2 * GRID_SIZE) % SCREEN_HEIGHT) :: c :: t).dropLast
       else ((c.1 + s.direction.1 * GRID_SIZE) % SCREEN_WIDTH,
             (c.2 + s.direction.2 * GRID_SIZE) % SCREEN_HEIGHT) :: c :: t) } := by
  simp only [Snake.move, hps]
  norm_num

/-- `Snake.move` preserves the snake invariant. -/
theorem Snake.move_snakeOK {s s' : Snake} (hok : SnakeOK s) (he : s.move = some s') :
    SnakeOK s' := by
  obtain ⟨hal, hlen⟩ := hok
  cases hps : s.positions with
  | nil => rw [Snake.move, hps] at he; exact absurd he (by simp)
  | cons c t =>
    rw [Snake.move_cons hps] at he
    injection he with he
    subst he
    rw [hps] at hlen
    constructor
    · intro p hp
      dsimp only at hp
      have hmem : p ∈ ((c.1 + s.direction.1 * GRID_SIZE) % SCREEN_WIDTH,
          (c.2 + s.direction.2 * GRID_SIZE) % SCREEN_HEIGHT) :: c :: t := by
        by_cases hc : ((c :: t).length + 1 : Int) > s.length
        · rw [if_pos hc] at hp
          exact List.mem_of_mem_dropLast hp
        · rw [if_neg hc] at hp
          exact hp
      rcases List.mem_cons.mp hmem with hnew | hold
      · subst hnew
        exact alignedPos_step c s.direction (hal c (by rw [hps]; exact List.mem_cons_self _ _))
      · exact hal p (by rw [hps]; exact hold)
    · dsimp only
      by_cases hc : ((c :: t).length + 1 : Int) > s.length
      · rw [if_pos hc]
        rw [List.length_dropLast]
        simp only [List.length_cons] at *
        omega
      · rw [if_neg hc]
        simp only [List.length_cons] at *
        omega

/-- Moving a snake whose segment list has caught up with its `length`
counter keeps both the list length and the counter constant. -/
theorem Snake.move_keep {s : Snake} (h1 : s.positions ≠ [])
    (h2 : (s.positions.length : Int) = s.length) :
    ∃ s', s.move = some s' ∧ s'.positions.length = s.positions.length ∧
      s'.length = s.length ∧ s'.positions ≠ [] := by
  obtain ⟨c, t, hps⟩ := List.exists_cons_of_ne_nil h1
  have hcond : ((c :: t).length + 1 : Int) > s.length := by
    rw [hps] at h2
    omega
  have hmv := Snake.move_cons hps
  rw [if_pos hcond] at hmv
  refine ⟨_, hmv, ?_, rfl, ?_⟩
  · dsimp only
    rw [List.length_dropLast, hps]
    simp
  · dsimp only
    intro hnil
    have := congrArg List.length hnil
    rw [List.length_dropLast] at this
    simp at this

/-- Iterating `Snake.move` from a caught-up snake keeps the size
invariant (spec: advancing N times without growth is size-invariant). -/
theorem moveN_keep (n : Nat) :
    ∀ (s : Snake), s.positions ≠ [] → (s.positions.length : Int) = s.length →
      ∃ s', moveN n s = some s' ∧ s'.positions.length = s.positions.length ∧
        s'.length = s.length := by
  induction n with
  | zero => exact fun s _ _ => ⟨s, rfl, rfl, rfl⟩
  | succ n ih =>
    intro s h1 h2
    obtain ⟨sm, hsm, hm1, hm2, hm3⟩ := Snake.move_keep h1 h2
    obtain ⟨s', hs', h1', h2'⟩ := ih sm hm3 (by rw [hm1, hm2]; exact h2)
    refine ⟨s', ?_, ?_, ?_⟩
    · rw [moveN, hsm]
      exact hs'
    · rw [h1', hm1]
    · rw [h2', hm2]

/-- The reset-and-respawn branch preserves the loop invariant. -/
theorem resetRespawn_inv {st st' : LoopState} (h : InvL st)
    (he : resetRespawn st = some st') : InvL st' := by
  obtain ⟨hs, ha, hf, ho, hv⟩ := h
  unfold resetRespawn at he
  split at he
  · exact absurd he (by simp)
  · rename_i a d1 hr1
    split at he
    · exact absurd he (by simp)
    · rename_i f d2 hr2
      injection he with he
      subst he
      obtain ⟨ha1, hv1⟩ := randomize_position_some hv hr1
      obtain ⟨hf1, hv2⟩ := randomize_position_some hv1 hr2
      exact ⟨snakeOK_initial, ha1, hf1, ho, hv2⟩

/-- The obstacle check preserves the loop invariant. -/
theorem obstaclePhase_inv {st st' : LoopState} (h : InvL st)
    (he : obstaclePhase st = some st') : InvL st' := by
  unfold obstaclePhase at he
  split at he
  · exact absurd he (by simp)
  · split at he
    · exact resetRespawn_inv h he
    · injection he with he
      subst he
      exact h

/-- The self-collision check preserves the loop invariant. -/
theorem selfPhase_inv {st st' : LoopState} (h : InvL st)
    (he : selfPhase st = some st') : InvL st' := by
  unfold selfPhase at he
  split at he
  · exact absurd he (by simp)
  · split at he
    · exact resetRespawn_inv h he
    · injection he with he
      subst he
      exact h

/-- The apple check preserves the loop invariant. -/
theorem applePhase_inv {st st' : LoopState} (h : InvL st)
    (he : applePhase st = some st') : InvL st' := by
  obtain ⟨hs, ha, hf, ho, hv⟩ := h
  unfold applePhase at he
  split at he
  · exact absurd he (by simp)
  · split at he
    · split at he
      · exact absurd he (by simp)
      · rename_i a d1 hr1
        split at he
        · exact absurd he (by simp)
        · rename_i f d2 hr2
          injection he with he
          subst he
          obtain ⟨ha1, hv1⟩ := randomize_position_some hv hr1
          obtain ⟨hf1, hv2⟩ := randomize_position_some hv1 hr2
          exact ⟨Snake.grow_snakeOK hs, ha1, hf1, ho, hv2⟩
    · injection he with he
      subst he
      exact ⟨hs, ha, hf, ho, hv⟩

/-- The incorrect-food check preserves the loop invariant. -/
theorem foodPhase_inv {st st' : LoopState} (h : InvL st)
    (he : foodPhase st = some st') : InvL st' := by
  obtain ⟨hs, ha, hf, ho, hv⟩ := h
  unfold foodPhase at he
  split at he
  · exact absurd he (by simp)
  · split at he
    · split at he
      · exact absurd he (by simp)
      · rename_i s' hsh
        split at he
        · exact absurd he (by simp)
        · rename_i f d1 hr1
          injection he with he
          subst he
          obtain ⟨hf1, hv1⟩ := randomize_position_some hv hr1
          exact ⟨Snake.shrink_snakeOK hs hsh, ha, hf1, ho, hv1⟩
    · injection he with he
      subst he
      exact ⟨hs, ha, hf, ho, hv⟩

/-- `handle_keys` only writes the buffered direction. -/
theorem handle_keys_frame :
    ∀ (events : List GameEvent) (s s' : Snake),
      handle_keys s events = some s' →
      s'.positions = s.positions ∧ s'.length = s.length ∧
        s'.direction = s.direction := by
  intro events
  induction events with
  | nil =>
    intro s s' he
    injection he with he
    subst he
    exact ⟨rfl, rfl, rfl⟩
  | cons e rest ih =>
    intro s s' he
    cases e <;> simp only [handle_keys] at he
    · exact absurd he (by simp)
    · exact ih { s with next_direction := some UP } s' he
    · exact ih { s with next_direction := some DOWN } s' he
    · exact ih { s with next_direction := some LEFT } s' he
    · exact ih { s with next_direction := some RIGHT } s' he
    · exact ih s s' he

/-- The update part of a tick preserves the game-state invariant. -/
theorem tickBody_inv {gs gs' : GameState} {draws : List Draw} (h : InvG gs)
    (hv : ValidDraws draws) (he : tickBody gs draws = some gs') : InvG gs' := by
  obtain ⟨hs, ha, hf, ho⟩ := h
  unfold tickBody at he
  split at he
  · exact absurd he (by simp)
  · rename_i s2 hs2
    have hud : SnakeOK gs.snake.update_direction := by
      obtain ⟨hp, hl⟩ := Snake.update_direction_frame gs.snake
      exact ⟨by rw [hp]; exact hs.1, by rw [hp, hl]; exact hs.2⟩
    have h0 : InvL { snake := s2, apple := gs.apple,
                     incorrect_food := gs.incorrect_food,
                     obstacles := gs.obstacles, draws := draws } :=
      ⟨Snake.move_snakeOK hud hs2, ha, hf, ho, hv⟩
    split at he
    · exact absurd he (by simp)
    · rename_i st1 he1
      have h1 := obstaclePhase_inv h0 he1
      split at he
      · exact absurd he (by simp)
      · rename_i st2 he2
        have h2 := selfPhase_inv h1 he2
        split at he
        · exact absurd he (by simp)
        · rename_i st3 he3
          have h3 := applePhase_inv h2 he3
          split at he
          · exact absurd he (by simp)
          · rename_i st4 he4
            have h4 := foodPhase_inv h3 he4
            injection he with he
            subst he
            exact ⟨h4.1, h4.2.1, h4.2.2.1, h4.2.2.2.1⟩

/-- A full tick preserves the game-state invariant. -/
theorem tick_inv {gs gs' : GameState} {events : List GameEvent}
    {draws : List Draw} (h : InvG gs) (hv : ValidDraws draws)
    (he : tick gs events draws = some gs') : InvG gs' := by
  unfold tick at he
  split at he
  · exact absurd he (by simp)
  · rename_i s hsk
    obtain ⟨hp, hl, hd⟩ := handle_keys_frame events gs.snake s hsk
    refine @tickBody_inv { gs with snake := s } gs' draws
      ⟨⟨?_, ?_⟩, h.2.1, h.2.2.1, h.2.2.2⟩ hv he
    · show ∀ p ∈ s.positions, AlignedPos p
      rw [hp]
      exact h.1.1
    · show (s.positions.length : Int) ≤ s.length
      rw [hp, hl]
      exact h.1.2

/-- Every state the game loop reaches satisfies the invariant: aligned
entities, fixed obstacles, and `len(positions) ≤ length`. -/
theorem reachable_inv {gs : GameState} (h : Reachable gs) : InvG gs := by
  induction h with
  | init a f da df ra rf hva hvf hra hrf =>
    exact ⟨snakeOK_initial, (randomize_position_some hva hra).1,
      (randomize_position_some hvf hrf).1, rfl⟩
  | step gs gs' ev dr hr hv he ih =>
    exact tick_inv ih hv he

/-- The reset-and-respawn branch leaves the obstacle list alone. -/
theorem resetRespawn_obstacles {st st' : LoopState}
    (he : resetRespawn st = some st') : st'.obstacles = st.obstacles := by
  unfold resetRespawn at he
  split at he
  · exact absurd he (by simp)
  · split at he
    · exact absurd he (by simp)
    · injection he with he
      subst he
      rfl

/-- The obstacle check leaves the obstacle list alone. -/
theorem obstaclePhase_obstacles {st st' : LoopState}
    (he : obstaclePhase st = some st') : st'.obstacles = st.obstacles := by
  unfold obstaclePhase at he
  split at he
  · exact absurd he (by simp)
  · split at he
    · exact resetRespawn_obstacles he
    · injection he with he
      subst he
      rfl

/-- The self-collision check leaves the obstacle list alone. -/
theorem selfPhase_obstacles {st st' : LoopState}
    (he : selfPhase st = some st') : st'.obstacles = st.obstacles := by
  unfold selfPhase at he
  split at he
  · exact absurd he (by simp)
  · split at he
    · exact resetRespawn_obstacles he
    · injection he with he
      subst he
      rfl

/-- The apple check leaves the obstacle list alone. -/
theorem applePhase_obstacles {st st' : LoopState}
    (he : applePhase st = some st') : st'.obstacles = st.obstacles := by
  unfold applePhase at he
  split at he
  · exact absurd he (by simp)
  · split at he
    · split at he
      · exact absurd he (by simp)
      · split at he
        · exact absurd he (by simp)
        · injection he with he
          subst he
          rfl
    · injection he with he
      subst he
      rfl

/-- The incorrect-food check leaves the obstacle list alone, and also the
apple, and touches the snake only through `shrink`. -/
theorem foodPhase_frame {st st' : LoopState}
    (he : foodPhase st = some st') :
    st'.apple = st.apple ∧ st'.obstacles = st.obstacles ∧
      (st.snake.shrink = some st'.snake ∨ st'.snake = st.snake) := by
  unfold foodPhase at he
  split at he
  · exact absurd he (by simp)
  · split at he
    · split at he
      · exact absurd he (by simp)
      · rename_i s' hsh
        split at he
        · exact absurd he (by simp)
        · injection he with he
          subst he
          exact ⟨rfl, rfl, Or.inl hsh⟩
    · injection he with he
      subst he
      exact ⟨rfl, rfl, Or.inr rfl⟩

/-- The update part of a tick leaves the obstacle list alone. -/
theorem tickBody_obstacles {gs gs' : GameState} {draws : List Draw}
    (he : tickBody gs draws = some gs') : gs'.obstacles = gs.obstacles := by
  unfold tickBody at he
  split at he
  · exact absurd he (by simp)
  · rename_i s2 hs2
    split at he
    · exact absurd he (by simp)
    · rename_i st1 he1
      split at he
      · exact absurd he (by simp)
      · rename_i st2 he2
        split at he
        · exact absurd he (by simp)
        · rename_i st3 he3
          split at he
          · exact absurd he (by simp)
          · rename_i st4 he4
            injection he with he
            subst he
            have o1 := obstaclePhase_obstacles he1
            have o2 := selfPhase_obstacles he2
            have o3 := applePhase_obstacles he3
            have o4 := (foodPhase_frame he4).2.1
            simp only at o1
            rw [o4, o3, o2, o1]

/-- A full tick leaves the obstacle list alone. -/
theorem tick_obstacles {gs gs' : GameState} {events : List GameEvent}
    {draws : List Draw} (he : tick gs events draws = some gs') :
    gs'.obstacles = gs.obstacles := by
  unfold tick at he
  split at he
  · exact absurd he (by simp)
  · rename_i s hsk
    exact @tickBody_obstacles { gs with snake := s } gs' draws he

/-- C5: for every snake state, `shrink()` with `length > 1` decrements
`length` by exactly one and eagerly removes the current tail segment
whenever the tail pop is defined (a non-empty segment list; popping an
empty list raises, modeled `none`); with `length == 1` it is a no-op
returning the entire snake state (positions, length, direction, buffered
direction) unchanged. -/
theorem c5_shrink_spec (s : Snake) :
    (1 < s.length → s.positions ≠ [] →
      s.shrink = some { s with length := s.length - 1,
                               positions := s.positions.dropLast }) ∧
    (1 < s.length → s.positions = [] → s.shrink = none) ∧
    (s.length = 1 → s.shrink = some s) := by
  refine ⟨?_, ?_, ?_⟩
  · intro h hne
    unfold Snake.shrink
    rw [if_pos h]
    split
    · rename_i heq
      exact absurd heq hne
    · rfl
  · intro h hnil
    unfold Snake.shrink
    rw [if_pos h]
    split
    · rfl
    · rename_i c t heq
      rw [hnil] at heq
      simp at heq
  · intro h
    unfold Snake.shrink
    rw [if_neg (by omega)]

/-- Witness for C5 at a concrete two-segment snake. -/
theorem c5_shrink_spec_witness :
    1 < (⟨[(0, 0), (20, 0)], RIGHT, none, 2⟩ : Snake).length ∧
    (⟨[(0, 0), (20, 0)], RIGHT, none, 2⟩ : Snake).positions ≠ [] ∧
    (⟨[(0, 0), (20, 0)], RIGHT, none, 2⟩ : Snake).shrink =
      some { (⟨[(0, 0), (20, 0)], RIGHT, none, 2⟩ : Snake) with
               length := (⟨[(0, 0), (20, 0)], RIGHT, none, 2⟩ : Snake).length - 1,
               positions :=
                 (⟨[(0, 0), (20, 0)], RIGHT, none, 2⟩ :
                   Snake).positions.dropLast } :=
  ⟨by decide, by decide, (c5_shrink_spec _).1 (by decide) (by decide)⟩

/-- C6: for every snake state, `update_direction` adopts the buffered
direction exactly when one exists and is not the exact opposite of the
current direction, clears the buffer in every case, and never touches
positions or length; buffering the exact opposite leaves the direction
unchanged (no 180 degree reversal in one step). -/
theorem c6_update_direction_spec (s : Snake) :
    (s.next_direction = none → s.update_direction = s) ∧
    (∀ d : Pos, s.next_direction = some d →
      (s.update_direction).next_direction = none ∧
      (s.update_direction).positions = s.positions ∧
      (s.update_direction).length = s.length ∧
      (d ≠ (-s.direction.1, -s.direction.2) →
        (s.update_direction).direction = d) ∧
      (d = (-s.direction.1, -s.direction.2) →
        (s.update_direction).direction = s.direction)) := by
  constructor
  · intro h
    unfold Snake.update_direction
    rw [h]
  · intro d hd
    unfold Snake.update_direction
    rw [hd]
    dsimp only
    have hiff : ((-d.1, -d.2) : Pos) = s.direction ↔
        d = (-s.direction.1, -s.direction.2) := by
      constructor
      · intro hh
        rw [← hh]
        simp
      · intro hh
        rw [hh]
        simp
    by_cases hop : ((-d.1, -d.2) : Pos) ≠ s.direction
    · rw [if_pos hop]
      exact ⟨rfl, rfl, rfl, fun _ => rfl,
        fun hcon => absurd (hiff.mpr hcon) hop⟩
    · rw [if_neg hop]
      push_neg at hop
      exact ⟨rfl, rfl, rfl, fun hne => absurd (hiff.mp hop) hne,
        fun _ => rfl⟩

/-- Witness for C6 at a concrete snake buffering `UP` while heading
`RIGHT`. -/
theorem c6_update_direction_spec_witness :
    (⟨[(0, 0)], RIGHT, some UP, 1⟩ : Snake).next_direction = some UP ∧
    ((⟨[(0, 0)], RIGHT, some UP, 1⟩ : Snake).update_direction.next_direction = none ∧
      (⟨[(0, 0)], RIGHT, some UP, 1⟩ : Snake).update_direction.positions =
        (⟨[(0, 0)], RIGHT, some UP, 1⟩ : Snake).positions ∧
      (⟨[(0, 0)], RIGHT, some UP, 1⟩ : Snake).update_direction.length =
        (⟨[(0, 0)], RIGHT, some UP, 1⟩ : Snake).length ∧
      (UP ≠ (-(⟨[(0, 0)], RIGHT, some UP, 1⟩ : Snake).direction.1,
             -(⟨[(0, 0)], RIGHT, some UP, 1⟩ : Snake).direction.2) →
        (⟨[(0, 0)], RIGHT, some UP, 1⟩ : Snake).update_direction.direction = UP) ∧
      (UP = (-(⟨[(0, 0)], RIGHT, some UP, 1⟩ : Snake).direction.1,
             -(⟨[(0, 0)], RIGHT, some UP, 1⟩ : Snake).direction.2) →
        (⟨[(0, 0)], RIGHT, some UP, 1⟩ : Snake).update_direction.direction =
          (⟨[(0, 0)], RIGHT, some UP, 1⟩ : Snake).direction)) :=
  ⟨rfl, (c6_update_direction_spec _).2 UP rfl⟩

/-- C7: with a non-empty obstacle list, any position `randomize_position`
accepts (for Apple and IncorrectFood alike, which share this code) differs
from every obstacle position, under every sequence of draws for which the
loop terminates; only obstacles are avoided — the accepted cell may lie on
the snake body. -/
theorem c7_randomize_avoids_obstacles :
    (∀ (obstacles : List Pos) (draws : List Draw) (p : Pos) (rest : List Draw),
      obstacles ≠ [] → randomize_position obstacles draws = some (p, rest) →
      p ∉ obstacles) ∧
    (randomize_position initialObstacles [(16, 12)] = some ((320, 240), []) ∧
      ((320, 240) : Pos) ∈ initialSnake.positions) := by
  refine ⟨fun obstacles draws p rest hne he =>
    randomize_position_not_mem hne he, ?_, ?_⟩
  · decide
  · decide

/-- Witness for C7: the first draw lands on the obstacle `(100, 100)` and
is rejected; the second is accepted and avoids every obstacle. -/
theorem c7_randomize_avoids_obstacles_witness :
    initialObstacles ≠ [] ∧
    randomize_position initialObstacles [(5, 5), (0, 0)] = some ((0, 0), []) ∧
    ((0, 0) : Pos) ∉ initialObstacles :=
  ⟨by decide, by decide,
    c7_randomize_avoids_obstacles.1 initialObstacles [(5, 5), (0, 0)]
      (0, 0) [] (by decide) (by decide)⟩

/-- C4: from any snake state with a defined head and
`len(positions) ≤ length`, one `move` yields
`len(positions') = min(len(positions) + 1, length)`; iterating `move`
from a caught-up snake keeps the size and the counter constant; and
`grow()` followed by one `move` grows the segment list by exactly one
(growth is lazy). -/
theorem c4_move_length_spec (s : Snake) (hne : s.positions ≠ [])
    (hlen : (s.positions.length : Int) ≤ s.length) :
    (∃ s', s.move = some s' ∧
      (s'.positions.length : Int) =
        min ((s.positions.length : Int) + 1) s.length ∧
      s'.length = s.length) ∧
    ((s.positions.length : Int) = s.length →
      ∀ n : Nat, ∃ s', moveN n s = some s' ∧
        s'.positions.length = s.positions.length ∧ s'.length = s.length) ∧
    (∃ s', s.grow.move = some s' ∧
      s'.positions.length = s.positions.length + 1 ∧
      s'.length = s.length + 1) := by
  obtain ⟨c, t, hps⟩ := List.exists_cons_of_ne_nil hne
  refine ⟨?_, ?_, ?_⟩
  · refine ⟨_, Snake.move_cons hps, ?_, rfl⟩
    dsimp only
    rw [hps] at hlen ⊢
    by_cases hc : ((c :: t).length + 1 : Int) > s.length
    · rw [if_pos hc, List.length_dropLast]
      simp only [List.length_cons] at *
      omega
    · rw [if_neg hc]
      simp only [List.length_cons] at *
      omega
  · intro heq n
    exact moveN_keep n s hne heq
  · have hps' : s.grow.positions = c :: t := hps
    refine ⟨_, Snake.move_cons hps', ?_, rfl⟩
    dsimp only
    have hc : ¬ ((c :: t).length + 1 : Int) > s.grow.length := by
      rw [hps] at hlen
      unfold Snake.grow
      dsimp only
      simp only [List.length_cons] at *
      omega
    rw [if_neg hc, hps]
    simp

/-- Witness for C4 at the initial snake (one segment, `length = 1`). -/
theorem c4_move_length_spec_witness :
    initialSnake.positions ≠ [] ∧
    (initialSnake.positions.length : Int) ≤ initialSnake.length ∧
    ((∃ s', initialSnake.move = some s' ∧
        (s'.positions.length : Int) =
          min ((initialSnake.positions.length : Int) + 1) initialSnake.length ∧
        s'.length = initialSnake.length) ∧
      ((initialSnake.positions.length : Int) = initialSnake.length →
        ∀ n : Nat, ∃ s', moveN n initialSnake = some s' ∧
          s'.positions.length = initialSnake.positions.length ∧
          s'.length = initialSnake.length) ∧
      (∃ s', initialSnake.grow.move = some s' ∧
        s'.positions.length = initialSnake.positions.length + 1 ∧
        s'.length = initialSnake.length + 1)) :=
  ⟨by decide, by decide, c4_move_length_spec initialSnake (by decide) (by decide)⟩

/-- C3: every reachable game state is grid-aligned: each coordinate of
every snake segment, the apple, the incorrect food and every obstacle is
a non-negative multiple of `GRID_SIZE` strictly below its screen
dimension. -/
theorem c3_alignment_invariant (gs : GameState) (h : Reachable gs) :
    (∀ p ∈ gs.snake.positions, AlignedPos p) ∧
    AlignedPos gs.apple ∧ AlignedPos gs.incorrect_food ∧
    (∀ p ∈ gs.obstacles, AlignedPos p) := by
  obtain ⟨hs, ha, hf, ho⟩ := reachable_inv h
  refine ⟨hs.1, ha, hf, ?_⟩
  rw [ho]
  decide

/-- Witness for C3 at a concrete initial state. -/
theorem c3_alignment_invariant_witness :
    Reachable ⟨initialSnake, (0, 0), (0, 0), initialObstacles⟩ ∧
    ((∀ p ∈ (⟨initialSnake, (0, 0), (0, 0), initialObstacles⟩ :
        GameState).snake.positions, AlignedPos p) ∧
      AlignedPos (⟨initialSnake, (0, 0), (0, 0), initialObstacles⟩ :
        GameState).apple ∧
      AlignedPos (⟨initialSnake, (0, 0), (0, 0), initialObstacles⟩ :
        GameState).incorrect_food ∧
      (∀ p ∈ (⟨initialSnake, (0, 0), (0, 0), initialObstacles⟩ :
        GameState).obstacles, AlignedPos p)) :=
  have hr : Reachable ⟨initialSnake, (0, 0), (0, 0), initialObstacles⟩ :=
    Reachable.init (0, 0) (0, 0) [(0, 0)] [(0, 0)] [] []
      (by decide) (by decide) (by decide) (by decide)
  ⟨hr, c3_alignment_invariant _ hr⟩

/-- C9: frame conditions — every reachable state keeps the five initial
obstacles, every successful tick leaves the obstacle list unchanged, and
the incorrect-food branch modifies only the snake (via `shrink`) and the
incorrect food, never the apple or the obstacles. -/
theorem c9_obstacles_and_food_frame :
    (∀ gs : GameState, Reachable gs → gs.obstacles = initialObstacles) ∧
    (∀ (gs gs' : GameState) (events : List GameEvent) (draws : List Draw),
      tick gs events draws = some gs' → gs'.obstacles = gs.obstacles) ∧
    (∀ st st' : LoopState, foodPhase st = some st' →
      st'.apple = st.apple ∧ st'.obstacles = st.obstacles ∧
      (st.snake.shrink = some st'.snake ∨ st'.snake = st.snake)) :=
  ⟨fun _gs h => (reachable_inv h).2.2.2,
   fun _gs _gs' _events _draws he => tick_obstacles he,
   fun _st _st' he => foodPhase_frame he⟩

/-- Witness for C9 at a concrete collision-free tick with no draws. -/
theorem c9_obstacles_and_food_frame_witness :
    tick ⟨initialSnake, (0, 0), (0, 0), initialObstacles⟩ [] [] =
      some ⟨⟨[(340, 240)], RIGHT, none, 1⟩, (0, 0), (0, 0), initialObstacles⟩ ∧
    (⟨⟨[(340, 240)], RIGHT, none, 1⟩, (0, 0), (0, 0), initialObstacles⟩ :
      GameState).obstacles =
      (⟨initialSnake, (0, 0), (0, 0), initialObstacles⟩ : GameState).obstacles :=
  ⟨by decide,
    c9_obstacles_and_food_frame.2.1
      ⟨initialSnake, (0, 0), (0, 0), initialObstacles⟩
      ⟨⟨[(340, 240)], RIGHT, none, 1⟩, (0, 0), (0, 0), initialObstacles⟩
      [] [] (by decide)⟩

/-- C1 refutation (the code has a bug): the snake CAN vanish.  Start from
the reachable state whose apple sits directly ahead of the fresh snake.
In one tick the length-1 snake eats the apple (`grow` makes
`length = 2` while the list still has one segment) and the incorrect
food re-randomized by the apple branch lands on the new head, so the
food branch's `shrink` pops the only segment.  The resulting state is
reachable with `positions = []`, and the next tick's `move` hits the
empty list (`positions[0]` raises `IndexError`). -/
theorem c1_snake_vanishes :
    Reachable ⟨⟨[], RIGHT, none, 1⟩, (0, 0), (20, 20), initialObstacles⟩ ∧
    (⟨[], RIGHT, none, 1⟩ : Snake).positions = [] ∧
    (⟨[], RIGHT, none, 1⟩ : Snake).get_head_position = none ∧
    (⟨[], RIGHT, none, 1⟩ : Snake).update_direction.move = none := by
  refine ⟨?_, rfl, rfl, rfl⟩
  have h0 : Reachable ⟨initialSnake, (340, 240), (0, 0), initialObstacles⟩ :=
    Reachable.init (340, 240) (0, 0) [(17, 12)] [(0, 0)] [] []
      (by decide) (by decide) (by decide) (by decide)
  exact Reachable.step _ _ [] [(0, 0), (17, 12), (1, 1)] h0
    (by decide) (by decide)

/-- C10: placement checks only obstacles, so the apple and the incorrect
food can occupy the same cell — already at startup, and again after the
re-randomizations inside a tick — and food can appear on the very cell
the head is about to occupy. -/
theorem c10_food_overlap :
    (Reachable ⟨initialSnake, (0, 0), (0, 0), initialObstacles⟩ ∧
      (⟨initialSnake, (0, 0), (0, 0), initialObstacles⟩ : GameState).apple =
        (⟨initialSnake, (0, 0), (0, 0), initialObstacles⟩ :
          GameState).incorrect_food) ∧
    (tickBody ⟨⟨[(40, 60)], RIGHT, none, 1⟩, (60, 60), (100, 0),
        initialObstacles⟩ [(0, 0), (0, 0)] =
      some ⟨⟨[(60, 60)], RIGHT, none, 2⟩, (0, 0), (0, 0), initialObstacles⟩ ∧
      (⟨⟨[(60, 60)], RIGHT, none, 2⟩, (0, 0), (0, 0), initialObstacles⟩ :
        GameState).apple =
        (⟨⟨[(60, 60)], RIGHT, none, 2⟩, (0, 0), (0, 0), initialObstacles⟩ :
          GameState).incorrect_food) ∧
    (Reachable ⟨initialSnake, (0, 0), (340, 240), initialObstacles⟩ ∧
      initialSnake.update_direction.move =
        some ⟨[(340, 240)], RIGHT, none, 1⟩ ∧
      (⟨[(340, 240)], RIGHT, none, 1⟩ : Snake).get_head_position =
        some (⟨initialSnake, (0, 0), (340, 240), initialObstacles⟩ :
          GameState).incorrect_food) := by
  refine ⟨⟨?_, rfl⟩, ⟨by decide, rfl⟩, ⟨?_, by decide, rfl⟩⟩
  · exact Reachable.init (0, 0) (0, 0) [(0, 0)] [(0, 0)] [] []
      (by decide) (by decide) (by decide) (by decide)
  · exact Reachable.init (0, 0) (340, 240) [(0, 0)] [(17, 12)] [] []
      (by decide) (by decide) (by decide) (by decide)

/-- C2: the four collision checks are independent if-statements run
unconditionally in fixed order.  (1) In general, whenever the moved head
hits an obstacle, the obstacle branch resets the snake, and the
subsequent self-collision check, now run against the reset single-segment
snake, passes the state through unchanged (it cannot additionally
trigger).  (2) Concretely, a tick whose moved head hits an obstacle and a
body segment simultaneously resolves as an obstacle collision, and the
apple check still fires afterwards when the re-randomized apple equals
the reset head position: the reset snake ends the tick grown to
`length = 2`. -/
theorem c2_check_order :
    (∀ (st st' : LoopState) (h : Pos),
      st.snake.get_head_position = some h → h ∈ st.obstacles →
      obstaclePhase st = some st' →
      st'.snake = st.snake.reset ∧ selfPhase st' = some st') ∧
    (((100 : Int), (100 : Int)) ∈
        (⟨⟨[(80, 100), (100, 100), (100, 120)], RIGHT, none, 3⟩, (0, 0),
          (0, 0), initialObstacles⟩ : GameState).obstacles ∧
      (⟨⟨[(80, 100), (100, 100), (100, 120)], RIGHT, none, 3⟩, (0, 0),
        (0, 0), initialObstacles⟩ : GameState).snake.update_direction.move =
        some ⟨[(100, 100), (80, 100), (100, 100)], RIGHT, none, 3⟩ ∧
      ((100, 100) : Pos) ∈
        (⟨[(100, 100), (80, 100), (100, 100)], RIGHT, none, 3⟩ :
          Snake).positions.tail ∧
      tickBody ⟨⟨[(80, 100), (100, 100), (100, 120)], RIGHT, none, 3⟩,
          (0, 0), (0, 0), initialObstacles⟩
          [(16, 12), (0, 0), (1, 1), (2, 1)] =
        some ⟨⟨[(320, 240)], RIGHT, none, 2⟩, (20, 20), (40, 20),
          initialObstacles⟩) := by
  constructor
  · intro st st' h hh hmem he
    unfold obstaclePhase at he
    split at he
    · rename_i heq
      rw [hh] at heq
      simp at heq
    · rename_i h2 heq
      rw [hh] at heq
      injection heq with heq
      subst heq
      rw [if_pos hmem] at he
      unfold resetRespawn at he
      split at he
      · simp at he
      · rename_i a d1 hr1
        split at he
        · simp at he
        · rename_i f d2 hr2
          injection he with he
          subst he
          exact ⟨rfl, rfl⟩
  · exact ⟨by decide, by decide, by decide, by decide⟩

/-- Witness for C2 at a concrete obstacle hit. -/
theorem c2_check_order_witness :
    (⟨⟨[(100, 100)], RIGHT, none, 1⟩, (0, 0), (0, 0), initialObstacles,
      [(0, 0), (1, 0)]⟩ : LoopState).snake.get_head_position =
        some (100, 100) ∧
    ((100, 100) : Pos) ∈ (⟨⟨[(100, 100)], RIGHT, none, 1⟩, (0, 0), (0, 0),
      initialObstacles, [(0, 0), (1, 0)]⟩ : LoopState).obstacles ∧
    obstaclePhase ⟨⟨[(100, 100)], RIGHT, none, 1⟩, (0, 0), (0, 0),
        initialObstacles, [(0, 0), (1, 0)]⟩ =
      some ⟨initialSnake, (0, 0), (20, 0), initialObstacles, []⟩ ∧
    ((⟨initialSnake, (0, 0), (20, 0), initialObstacles, []⟩ :
        LoopState).snake =
      (⟨⟨[(100, 100)], RIGHT, none, 1⟩, (0, 0), (0, 0), initialObstacles,
        [(0, 0), (1, 0)]⟩ : LoopState).snake.reset ∧
      selfPhase ⟨initialSnake, (0, 0), (20, 0), initialObstacles, []⟩ =
        some ⟨initialSnake, (0, 0), (20, 0), initialObstacles, []⟩) :=
  ⟨rfl, by decide, by decide,
    c2_check_order.1
      ⟨⟨[(100, 100)], RIGHT, none, 1⟩, (0, 0), (0, 0), initialObstacles,
        [(0, 0), (1, 0)]⟩
      ⟨initialSnake, (0, 0), (20, 0), initialObstacles, []⟩
      (100, 100) rfl (by decide) (by decide)⟩

/-- C8 (amended): in a tick in which the head lands on the apple and no
earlier reset has fired, the apple step increments `length` by exactly
one, leaves the moved segment list untouched, and re-randomizes both the
apple and the incorrect food (each avoiding only obstacles); the apple's
new position may coincide with its old one. -/
theorem c8_apple_step {st st' : LoopState} {h : Pos}
    (hh : st.snake.get_head_position = some h) (ha : h = st.apple)
    (he : applePhase st = some st') :
    st'.snake.length = st.snake.length + 1 ∧
    st'.snake.positions = st.snake.positions ∧
    ∃ d1 : List Draw,
      randomize_position st.obstacles st.draws = some (st'.apple, d1) ∧
      randomize_position st.obstacles d1 =
        some (st'.incorrect_food, st'.draws) := by
  unfold applePhase at he
  split at he
  · rename_i heq
    rw [hh] at heq
    simp at heq
  · rename_i h2 heq
    rw [hh] at heq
    injection heq with heq
    subst heq
    rw [if_pos ha] at he
    split at he
    · simp at he
    · rename_i a d1 hr1
      split at he
      · simp at he
      · rename_i f d2 hr2
        injection he with he
        subst he
        exact ⟨rfl, rfl, d1, hr1, hr2⟩

/-- Witness for C8 (amended) at a concrete apple hit. -/
theorem c8_apple_step_witness :
    (⟨⟨[(60, 60)], RIGHT, none, 1⟩, (60, 60), (0, 0), initialObstacles,
      [(3, 3), (0, 1)]⟩ : LoopState).snake.get_head_position =
        some (60, 60) ∧
    ((60, 60) : Pos) = (⟨⟨[(60, 60)], RIGHT, none, 1⟩, (60, 60), (0, 0),
      initialObstacles, [(3, 3), (0, 1)]⟩ : LoopState).apple ∧
    applePhase ⟨⟨[(60, 60)], RIGHT, none, 1⟩, (60, 60), (0, 0),
        initialObstacles, [(3, 3), (0, 1)]⟩ =
      some ⟨⟨[(60, 60)], RIGHT, none, 2⟩, (60, 60), (0, 20),
        initialObstacles, []⟩ ∧
    ((⟨⟨[(60, 60)], RIGHT, none, 2⟩, (60, 60), (0, 20), initialObstacles,
        []⟩ : LoopState).snake.length =
      (⟨⟨[(60, 60)], RIGHT, none, 1⟩, (60, 60), (0, 0), initialObstacles,
        [(3, 3), (0, 1)]⟩ : LoopState).snake.length + 1 ∧
      (⟨⟨[(60, 60)], RIGHT, none, 2⟩, (60, 60), (0, 20), initialObstacles,
        []⟩ : LoopState).snake.positions =
        (⟨⟨[(60, 60)], RIGHT, none, 1⟩, (60, 60), (0, 0), initialObstacles,
          [(3, 3), (0, 1)]⟩ : LoopState).snake.positions ∧
      ∃ d1 : List Draw,
        randomize_position initialObstacles [(3, 3), (0, 1)] =
          some ((60, 60), d1) ∧
        randomize_position initialObstacles d1 = some ((0, 20), [])) :=
  ⟨rfl, rfl, by decide,
    @c8_apple_step
      ⟨⟨[(60, 60)], RIGHT, none, 1⟩, (60, 60), (0, 0), initialObstacles,
        [(3, 3), (0, 1)]⟩
      ⟨⟨[(60, 60)], RIGHT, none, 2⟩, (60, 60), (0, 20), initialObstacles, []⟩
      (60, 60) rfl rfl (by decide)⟩

/-- C8 counterexample: a tick in which the snake's new head lands exactly
on the apple at `(60, 60)` but the re-randomized apple comes back to
`(60, 60)`: the apple's new position equals its old one, because
placement avoids only obstacles. -/
theorem c8_same_apple_counterexample :
    (⟨⟨[(40, 60)], RIGHT, none, 1⟩, (60, 60), (0, 0), initialObstacles⟩ :
      GameState).snake.update_direction.move =
        some ⟨[(60, 60)], RIGHT, none, 1⟩ ∧
    (⟨[(60, 60)], RIGHT, none, 1⟩ : Snake).get_head_position =
      some (⟨⟨[(40, 60)], RIGHT, none, 1⟩, (60, 60), (0, 0),
        initialObstacles⟩ : GameState).apple ∧
    tickBody ⟨⟨[(40, 60)], RIGHT, none, 1⟩, (60, 60), (0, 0),
        initialObstacles⟩ [(3, 3), (0, 1)] =
      some ⟨⟨[(60, 60)], RIGHT, none, 2⟩, (60, 60), (0, 20),
        initialObstacles⟩ ∧
    (⟨⟨[(60, 60)], RIGHT, none, 2⟩, (60, 60), (0, 20), initialObstacles⟩ :
      GameState).apple =
      (⟨⟨[(40, 60)], RIGHT, none, 1⟩, (60, 60), (0, 0), initialObstacles⟩ :
        GameState).apple := by
  exact ⟨by decide, rfl, by decide, rfl⟩
